import Mathlib

/-!
Shallow embedding of the MPEG audio frame-header decoder (`MpegFrameHdr.cpp`) and
the MP3 stream scanner (`Mp3AudioData.cpp`) of the pkisensee/Audio repository,
together with theorems settling the frozen claims about its specification.

Conventions of the embedding:
* machine integers (`uint32_t`, `uint64_t`, `size_t`, pointers-as-offsets) are
  modelled as `Nat`; all arithmetic stays far below `2 ^ 32`, so no explicit
  wrapping is required;
* the `double` accumulator `durationSec_` is modelled as an exact rational (`ℚ`);
* fixed C++ arrays become Lean list literals indexed with `List.getD`; the C++
  code only ever indexes them with values produced by the bit-field extractor,
  which are small enough, so the `getD` fallback mirrors the (never exercised)
  out-of-range behaviour totally;
* the unchecked 4-byte header read is totalised by zero-filling the bytes past
  the end of the buffer (`readWordZ`); a zero-filled byte makes the frame-sync
  test fail, so a partially out-of-range candidate is never a valid header.  The
  companion `readWordOpt` returns `none` for such reads, and the scanner records
  in its `oob` flag whether any constructed header's 4-byte read ran past the
  end of the buffer;
* debug-only `assert` statements are not modelled as runtime behaviour (they
  vanish in release builds); the claims about them are stated as theorems.
-/

namespace PKIsensee

/-- Fields of the 32-bit MPEG frame header, from `MpegFrameHdr.h`. -/
inductive MpegField where
  | FrameSync
  | VersionIndex
  | LayerIndex
  | ProtectionBit
  | BitrateIndex
  | SamplingRateFreqIndex
  | PaddingBit
  | ChannelMode
  | ModeExtension
  | Copyright
  | Original
  | Emphasis
deriving DecidableEq

/-- MPEG version enumeration, from `MpegFrameHdr.h`. -/
inductive MpegVersion where
  | None
  | V1
  | V2
  | V2_5
deriving DecidableEq

/-- MPEG layer enumeration, from `MpegFrameHdr.h`. -/
inductive MpegLayer where
  | None
  | LayerI
  | LayerII
  | LayerIII
deriving DecidableEq

/-- MPEG channel-mode enumeration, from `MpegFrameHdr.h`. -/
inductive MpegChannelMode where
  | Stereo
  | JointStereo
  | DualChannel
  | SingleChannel
deriving DecidableEq

/-- Location and size of a field within the MPEG header block (`MpegFieldInfo`). -/
structure MpegFieldInfo where
  bitOffset : Nat
  bitCount : Nat
  bitMask : Nat

/-- Table `kMpegFieldInfo` from `MpegFrameHdr.cpp`: offset, bit count and mask of
each header field. -/
def kMpegFieldInfo : MpegField → MpegFieldInfo
  | .FrameSync => ⟨32, 11, 0b11111111111⟩
  | .VersionIndex => ⟨21, 2, 0b11⟩
  | .LayerIndex => ⟨19, 2, 0b11⟩
  | .ProtectionBit => ⟨17, 1, 0b1⟩
  | .BitrateIndex => ⟨16, 4, 0b1111⟩
  | .SamplingRateFreqIndex => ⟨12, 2, 0b11⟩
  | .PaddingBit => ⟨10, 1, 0b1⟩
  | .ChannelMode => ⟨8, 2, 0b11⟩
  | .ModeExtension => ⟨6, 2, 0b11⟩
  | .Copyright => ⟨4, 1, 0b1⟩
  | .Original => ⟨3, 1, 0b1⟩
  | .Emphasis => ⟨2, 2, 0b11⟩

/-- Table `kMpegVersion` from `MpegFrameHdr.cpp`: maps the 2-bit version index to
the version enumeration.  Index 1 is the reserved value. -/
def kMpegVersion : List MpegVersion := [.V2_5, .None, .V2, .V1]

/-- Table `kMpegLayer` from `MpegFrameHdr.cpp`: maps the 2-bit layer index to the
layer enumeration.  Index 0 is the reserved value. -/
def kMpegLayer : List MpegLayer := [.None, .LayerIII, .LayerII, .LayerI]

/-- Table `kMpegChannelMode` from `MpegFrameHdr.cpp`. -/
def kMpegChannelMode : List MpegChannelMode :=
  [.Stereo, .JointStereo, .DualChannel, .SingleChannel]

/-- Constant `kGoodFrameSync` from `MpegFrameHdr.cpp`: 11 bits set. -/
def kGoodFrameSync : Nat := 0b11111111111

/-- Constant `kVersionIndexReserved` from `MpegFrameHdr.cpp`. -/
def kVersionIndexReserved : Nat := 0b01

/-- Constant `kLayerIndexReserved` from `MpegFrameHdr.cpp`. -/
def kLayerIndexReserved : Nat := 0b0

/-- Constant `kSamplingRateFreqIndexReserved` from `MpegFrameHdr.cpp`. -/
def kSamplingRateFreqIndexReserved : Nat := 0b11

/-- Constant array `kBitrateIndexReserved` from `MpegFrameHdr.cpp`. -/
def kBitrateIndexReserved : List Nat := [0b0, 0b1111]

/-- Table `kSamplingRates` from `MpegFrameHdr.cpp`: sampling rates in hertz,
indexed by version index then sampling-rate-frequency index. -/
def kSamplingRates : List (List Nat) :=
  [ [11025, 12000, 8000],
    [0, 0, 0],
    [22050, 24000, 16000],
    [44100, 48000, 32000] ]

/-- Table `kSamplesPerFrame` from `MpegFrameHdr.cpp`, indexed by version index
then layer index.  The C++ row `{ 0 }` zero-fills the remaining entries. -/
def kSamplesPerFrame : List (List Nat) :=
  [ [0, 576, 1152, 384],
    [0, 0, 0, 0],
    [0, 576, 1152, 384],
    [0, 1152, 1152, 384] ]

/-- Table `kSlotSizes` from `MpegFrameHdr.cpp`, indexed by layer index. -/
def kSlotSizes : List Nat := [0, 1, 1, 4]

/-- Table `kBitrates` from `MpegFrameHdr.cpp`: bitrates in kbps indexed by
bitrate index, then version index, then layer index.  C++ `{0}` rows zero-fill. -/
def kBitrates : List (List (List Nat)) :=
  [ [ [0, 0, 0, 0], [0, 0, 0, 0], [0, 0, 0, 0], [0, 0, 0, 0] ],
    [ [0, 8, 8, 32], [0, 0, 0, 0], [0, 8, 8, 32], [0, 32, 32, 32] ],
    [ [0, 16, 16, 48], [0, 0, 0, 0], [0, 16, 16, 48], [0, 40, 48, 64] ],
    [ [0, 24, 24, 56], [0, 0, 0, 0], [0, 24, 24, 56], [0, 48, 56, 96] ],
    [ [0, 32, 32, 64], [0, 0, 0, 0], [0, 32, 32, 64], [0, 56, 64, 128] ],
    [ [0, 40, 40, 80], [0, 0, 0, 0], [0, 40, 40, 80], [0, 64, 80, 160] ],
    [ [0, 48, 48, 96], [0, 0, 0, 0], [0, 48, 48, 96], [0, 80, 96, 192] ],
    [ [0, 56, 56, 112], [0, 0, 0, 0], [0, 56, 56, 112], [0, 96, 112, 224] ],
    [ [0, 64, 64, 128], [0, 0, 0, 0], [0, 64, 64, 128], [0, 112, 128, 256] ],
    [ [0, 80, 80, 144], [0, 0, 0, 0], [0, 80, 80, 144], [0, 128, 160, 288] ],
    [ [0, 96, 96, 160], [0, 0, 0, 0], [0, 96, 96, 160], [0, 160, 192, 320] ],
    [ [0, 112, 112, 176], [0, 0, 0, 0], [0, 112, 112, 176], [0, 192, 224, 352] ],
    [ [0, 128, 128, 192], [0, 0, 0, 0], [0, 128, 128, 192], [0, 224, 256, 384] ],
    [ [0, 144, 144, 224], [0, 0, 0, 0], [0, 144, 144, 224], [0, 256, 320, 416] ],
    [ [0, 160, 160, 256], [0, 0, 0, 0], [0, 160, 160, 256], [0, 320, 384, 448] ] ]

/-- Lookup into `kSamplingRates` exactly as the C++ double indexing does. -/
def samplingRateAt (versionIndex srIndex : Nat) : Nat :=
  (kSamplingRates.getD versionIndex []).getD srIndex 0

/-- Lookup into `kSamplesPerFrame` exactly as the C++ double indexing does. -/
def samplesPerFrameAt (versionIndex layerIndex : Nat) : Nat :=
  (kSamplesPerFrame.getD versionIndex []).getD layerIndex 0

/-- Lookup into `kBitrates` exactly as the C++ triple indexing does. -/
def bitrateAt (bitrateIndex versionIndex layerIndex : Nat) : Nat :=
  ((kBitrates.getD bitrateIndex []).getD versionIndex []).getD layerIndex 0

namespace MpegFrameHdr

/-- Embedding of `MpegFrameHdr::ExtractBits`: shifts the field's mask into place,
masks the header word, and shifts the value back down.  The header word
`mpegHeader` of the C++ object is passed explicitly as `h`. -/
def ExtractBits (h : Nat) (mpegField : MpegField) : Nat :=
  let fi := kMpegFieldInfo mpegField
  let shift := fi.bitOffset - fi.bitCount
  (h &&& (fi.bitMask <<< shift)) >>> shift

/-- Embedding of `MpegFrameHdr::IsValid`: first 11 bits set and no reserved
indices used. -/
def IsValid (h : Nat) : Bool :=
  (ExtractBits h .FrameSync == kGoodFrameSync) &&
  (ExtractBits h .VersionIndex != kVersionIndexReserved) &&
  (ExtractBits h .LayerIndex != kLayerIndexReserved) &&
  (ExtractBits h .BitrateIndex != kBitrateIndexReserved.getD 0 0) &&
  (ExtractBits h .BitrateIndex != kBitrateIndexReserved.getD 1 0) &&
  (ExtractBits h .SamplingRateFreqIndex != kSamplingRateFreqIndexReserved)

/-- Embedding of `MpegFrameHdr::GetVersion`. -/
def GetVersion (h : Nat) : MpegVersion :=
  kMpegVersion.getD (ExtractBits h .VersionIndex) .None

/-- Embedding of `MpegFrameHdr::GetLayer`. -/
def GetLayer (h : Nat) : MpegLayer :=
  kMpegLayer.getD (ExtractBits h .LayerIndex) .None

/-- Embedding of `MpegFrameHdr::GetChannelMode`. -/
def GetChannelMode (h : Nat) : MpegChannelMode :=
  kMpegChannelMode.getD (ExtractBits h .ChannelMode) .Stereo

/-- Embedding of `MpegFrameHdr::GetBitrateKbps`. -/
def GetBitrateKbps (h : Nat) : Nat :=
  bitrateAt (ExtractBits h .BitrateIndex) (ExtractBits h .VersionIndex)
    (ExtractBits h .LayerIndex)

/-- Embedding of `MpegFrameHdr::GetSamplingRateHz`. -/
def GetSamplingRateHz (h : Nat) : Nat :=
  samplingRateAt (ExtractBits h .VersionIndex) (ExtractBits h .SamplingRateFreqIndex)

/-- Embedding of `MpegFrameHdr::GetSampleCount`. -/
def GetSampleCount (h : Nat) : Nat :=
  samplesPerFrameAt (ExtractBits h .VersionIndex) (ExtractBits h .LayerIndex)

/-- Embedding of `MpegFrameHdr::ProtectedByCRC`: the source compares the
ProtectionBit field against `0b1`. -/
def ProtectedByCRC (h : Nat) : Bool :=
  ExtractBits h .ProtectionBit == 0b1

/-- Embedding of `MpegFrameHdr::HasPaddingBit`. -/
def HasPaddingBit (h : Nat) : Bool :=
  ExtractBits h .PaddingBit != 0

/-- Embedding of `MpegFrameHdr::GetFrameBytes`: number of bytes in this frame,
including the header.  `CHAR_BIT` is 8 and `kKilobitsPerSecond` is 1000. -/
def GetFrameBytes (h : Nat) : Nat :=
  let bitrateIndex := ExtractBits h .BitrateIndex
  let versionIndex := ExtractBits h .VersionIndex
  let layerIndex := ExtractBits h .LayerIndex
  let sampleRateIndex := ExtractBits h .SamplingRateFreqIndex
  let slotSize := kSlotSizes.getD layerIndex 0
  let padding := if HasPaddingBit h then 1 else 0
  let paddingSize := slotSize * padding
  let samplesPerByte := samplesPerFrameAt versionIndex layerIndex / 8 / slotSize
  let bitRate := bitrateAt bitrateIndex versionIndex layerIndex * 1000
  let samplingRate := samplingRateAt versionIndex sampleRateIndex
  samplesPerByte * bitRate / samplingRate + paddingSize

/-- Embedding of `MpegFrameHdr::GetFrameDurationInSeconds`; the C++ `double`
quotient is modelled as an exact rational. -/
def GetFrameDurationInSecondsQ (h : Nat) : ℚ :=
  (GetSampleCount h : ℚ) / (GetSamplingRateHz h : ℚ)

end MpegFrameHdr

open MpegFrameHdr

/-- Masking with a shifted block of ones and shifting back equals shifting and
truncating: the arithmetic content of `ExtractBits`. -/
lemma extract_aux (h s k : Nat) :
    (h &&& ((2 ^ k - 1) <<< s)) >>> s = (h >>> s) % 2 ^ k := by
  apply Nat.eq_of_testBit_eq
  intro i
  simp only [Nat.testBit_shiftRight, Nat.testBit_and, Nat.testBit_shiftLeft,
    Nat.testBit_mod_two_pow, Nat.testBit_two_pow_sub_one, ge_iff_le,
    Nat.le_add_right, decide_True, Bool.true_and, Nat.add_sub_cancel_left]
  exact Bool.and_comm _ _

/-- Each field extraction is a shift followed by truncation to the field width. -/
lemma ExtractBits_eq_shift_mod (h : Nat) (f : MpegField) :
    ExtractBits h f =
      (h >>> ((kMpegFieldInfo f).bitOffset - (kMpegFieldInfo f).bitCount)) %
        2 ^ (kMpegFieldInfo f).bitCount := by
  cases f
  exacts [extract_aux h 21 11, extract_aux h 19 2, extract_aux h 17 2,
    extract_aux h 16 1, extract_aux h 12 4, extract_aux h 10 2, extract_aux h 9 1,
    extract_aux h 6 2, extract_aux h 4 2, extract_aux h 3 1, extract_aux h 2 1,
    extract_aux h 0 2]

lemma versionIndex_lt (h : Nat) : ExtractBits h .VersionIndex < 4 := by
  rw [ExtractBits_eq_shift_mod]
  exact Nat.mod_lt _ (by norm_num)

lemma layerIndex_lt (h : Nat) : ExtractBits h .LayerIndex < 4 := by
  rw [ExtractBits_eq_shift_mod]
  exact Nat.mod_lt _ (by norm_num)

lemma bitrateIndex_lt (h : Nat) : ExtractBits h .BitrateIndex < 16 := by
  rw [ExtractBits_eq_shift_mod]
  exact Nat.mod_lt _ (by norm_num)

lemma samplingRateFreqIndex_lt (h : Nat) : ExtractBits h .SamplingRateFreqIndex < 4 := by
  rw [ExtractBits_eq_shift_mod]
  exact Nat.mod_lt _ (by norm_num)

/-- Decomposition of `IsValid` into its five reserved-value conditions. -/
lemma isValid_iff (h : Nat) : IsValid h = true ↔
    ExtractBits h .FrameSync = kGoodFrameSync ∧
    ExtractBits h .VersionIndex ≠ 1 ∧
    ExtractBits h .LayerIndex ≠ 0 ∧
    ExtractBits h .BitrateIndex ≠ 0 ∧
    ExtractBits h .BitrateIndex ≠ 15 ∧
    ExtractBits h .SamplingRateFreqIndex ≠ 3 := by
  simp [IsValid, kVersionIndexReserved, kLayerIndexReserved,
    kSamplingRateFreqIndexReserved, kBitrateIndexReserved, and_assoc]

set_option synthInstance.maxSize 6000 in
set_option maxHeartbeats 1000000 in
/-- Exhaustive check over all in-range index combinations that survive the
validity gate: the table entries used by `GetFrameBytes` are positive, the
successive truncating divisions agree with a single floor division, and the
frame is at least one byte long. -/
lemma tables_enum :
    ∀ v < 4, ∀ l < 4, ∀ bi < 16, ∀ sr < 4,
      v ≠ 1 ∧ l ≠ 0 ∧ bi ≠ 0 ∧ bi ≠ 15 ∧ sr ≠ 3 →
      0 < samplesPerFrameAt v l ∧
      0 < samplesPerFrameAt v l / 8 / kSlotSizes.getD l 0 ∧
      0 < bitrateAt bi v l * 1000 ∧
      0 < samplingRateAt v sr ∧
      0 < kSlotSizes.getD l 0 ∧
      samplesPerFrameAt v l / 8 / kSlotSizes.getD l 0 * (bitrateAt bi v l * 1000) /
          samplingRateAt v sr
        = samplesPerFrameAt v l * (bitrateAt bi v l * 1000) /
            (8 * kSlotSizes.getD l 0 * samplingRateAt v sr) ∧
      1 ≤ samplesPerFrameAt v l / 8 / kSlotSizes.getD l 0 * (bitrateAt bi v l * 1000) /
          samplingRateAt v sr := by
  decide

/-- Unfolding of `GetFrameBytes` into the table lookups it performs. -/
lemma GetFrameBytes_def (h : Nat) :
    GetFrameBytes h =
      samplesPerFrameAt (ExtractBits h .VersionIndex) (ExtractBits h .LayerIndex) / 8 /
          kSlotSizes.getD (ExtractBits h .LayerIndex) 0 *
          (bitrateAt (ExtractBits h .BitrateIndex) (ExtractBits h .VersionIndex)
              (ExtractBits h .LayerIndex) * 1000) /
          samplingRateAt (ExtractBits h .VersionIndex)
            (ExtractBits h .SamplingRateFreqIndex) +
        kSlotSizes.getD (ExtractBits h .LayerIndex) 0 *
          (if HasPaddingBit h then 1 else 0) := rfl

/-- Instantiation of `tables_enum` at the index values extracted from a header
that passes the validity gate. -/
lemma valid_facts (h : Nat) (hv : IsValid h = true) :
    0 < samplesPerFrameAt (ExtractBits h .VersionIndex) (ExtractBits h .LayerIndex) ∧
    0 < samplesPerFrameAt (ExtractBits h .VersionIndex) (ExtractBits h .LayerIndex) / 8 /
        kSlotSizes.getD (ExtractBits h .LayerIndex) 0 ∧
    0 < bitrateAt (ExtractBits h .BitrateIndex) (ExtractBits h .VersionIndex)
        (ExtractBits h .LayerIndex) * 1000 ∧
    0 < samplingRateAt (ExtractBits h .VersionIndex) (ExtractBits h .SamplingRateFreqIndex) ∧
    0 < kSlotSizes.getD (ExtractBits h .LayerIndex) 0 ∧
    samplesPerFrameAt (ExtractBits h .VersionIndex) (ExtractBits h .LayerIndex) / 8 /
        kSlotSizes.getD (ExtractBits h .LayerIndex) 0 *
        (bitrateAt (ExtractBits h .BitrateIndex) (ExtractBits h .VersionIndex)
            (ExtractBits h .LayerIndex) * 1000) /
        samplingRateAt (ExtractBits h .VersionIndex) (ExtractBits h .SamplingRateFreqIndex)
      = samplesPerFrameAt (ExtractBits h .VersionIndex) (ExtractBits h .LayerIndex) *
          (bitrateAt (ExtractBits h .BitrateIndex) (ExtractBits h .VersionIndex)
              (ExtractBits h .LayerIndex) * 1000) /
          (8 * kSlotSizes.getD (ExtractBits h .LayerIndex) 0 *
            samplingRateAt (ExtractBits h .VersionIndex)
              (ExtractBits h .SamplingRateFreqIndex)) ∧
    1 ≤ samplesPerFrameAt (ExtractBits h .VersionIndex) (ExtractBits h .LayerIndex) / 8 /
        kSlotSizes.getD (ExtractBits h .LayerIndex) 0 *
        (bitrateAt (ExtractBits h .BitrateIndex) (ExtractBits h .VersionIndex)
            (ExtractBits h .LayerIndex) * 1000) /
        samplingRateAt (ExtractBits h .VersionIndex) (ExtractBits h .SamplingRateFreqIndex) := by
  obtain ⟨-, h1, h2, h3, h4, h5⟩ := (isValid_iff h).mp hv
  exact tables_enum _ (versionIndex_lt h) _ (layerIndex_lt h) _ (bitrateIndex_lt h) _
    (samplingRateFreqIndex_lt h) ⟨h1, h2, h3, h4, h5⟩

/-- Every frame that passes the validity gate advances the scan cursor by at
least one byte. -/
lemma one_le_GetFrameBytes (h : Nat) (hv : IsValid h = true) : 1 ≤ GetFrameBytes h := by
  have hf := valid_facts h hv
  rw [GetFrameBytes_def]
  exact le_trans hf.2.2.2.2.2.2 (Nat.le_add_right _ _)

/-- Modelled from the spec: the FrameBytes formula of section 4.1, namely
floor of `samplesPerFrame / 8 / slotSize * bitrateBitsPerSecond /
samplingRateHz` computed with exact rational arithmetic, plus `slotSize` when
the padding bit is set.  Compared against the source's `GetFrameBytes`, which
uses truncating machine division throughout. -/
def specFrameBytes (h : Nat) : Nat :=
  let slotSize := kSlotSizes.getD (ExtractBits h .LayerIndex) 0
  let bitrateBitsPerSecond : ℚ := (GetBitrateKbps h : ℚ) * 1000
  ⌊(GetSampleCount h : ℚ) / 8 / (slotSize : ℚ) * bitrateBitsPerSecond /
      (GetSamplingRateHz h : ℚ)⌋₊ +
    (if HasPaddingBit h then slotSize else 0)

/-- Floor of the exact rational frame-size expression as a single machine
division of products. -/
lemma floor_formula (a b c d : Nat) (hb : b ≠ 0) (hd : d ≠ 0) :
    ⌊(a : ℚ) / 8 / (b : ℚ) * ((c : ℚ) * 1000) / (d : ℚ)⌋₊ = a * (c * 1000) / (8 * b * d) := by
  have hbq : (b : ℚ) ≠ 0 := Nat.cast_ne_zero.mpr hb
  have hdq : (d : ℚ) ≠ 0 := Nat.cast_ne_zero.mpr hd
  have key : (a : ℚ) / 8 / (b : ℚ) * ((c : ℚ) * 1000) / (d : ℚ)
      = ((a * (c * 1000) : ℕ) : ℚ) / ((8 * b * d : ℕ) : ℚ) := by
    push_cast
    field_simp
  rw [key, Nat.floor_div_nat, Nat.floor_natCast]

/-- Constant `kMpegHdrByte` from `Mp3AudioData.cpp`: first 8 bits of an MPEG
header are always ones. -/
def kMpegHdrByte : Nat := 0xFF

/-- Constant `kMaxMpegFrameHeaderSearch` from `Mp3AudioData.cpp`: search no
further than this many bytes for the first MPEG frame. -/
def kMaxMpegFrameHeaderSearch : Nat := 500 * 1024

/-- Constant `kMinMpegFrames` from `Mp3AudioData.cpp`: find this many frames to
assume the buffer is an MPEG file. -/
def kMinMpegFrames : Nat := 3

/-- Model of `MpegFrameHdr::MpegFrameHdr(const uint8_t*)`: the big-endian
32-bit word assembled from the four bytes at `pos`.  The C++ read is
unchecked; bytes past the end of the buffer are modelled as zero, which can
never complete a frame sync, so a partially out-of-range candidate is never
valid. -/
def readWordZ (buf : List Nat) (pos : Nat) : Nat :=
  buf.getD pos 0 * 2 ^ 24 + buf.getD (pos + 1) 0 * 2 ^ 16 +
    buf.getD (pos + 2) 0 * 2 ^ 8 + buf.getD (pos + 3) 0

/-- Option-returning version of the 4-byte header read: `none` exactly when the
read would run past the end of the buffer (the case that is undefined behaviour
in the C++ source). -/
def readWordOpt (buf : List Nat) (pos : Nat) : Option Nat :=
  if pos + 4 ≤ buf.length then some (readWordZ buf pos) else none

/-- Phase-1 acceptance test from `Mp3AudioData::Load`: a valid MPEG Version 1
Layer III frame header. -/
def isV1LayerIII (w : Nat) : Bool :=
  IsValid w && (GetVersion w == MpegVersion.V1) && (GetLayer w == MpegLayer.LayerIII)

/-- Result of the phase-1 sync-acquisition loop of `Mp3AudioData::Load`: the
match counter, the offset and header word of the first match (if any), and
whether any constructed header candidate's 4-byte read ran past the end of the
buffer. -/
structure Phase1Result where
  count : Nat
  first : Option (Nat × Nat)
  oob : Bool
deriving DecidableEq

/-- One step per iteration of the phase-1 loop of `Mp3AudioData::Load` (lines
88 to 113): at each byte equal to `kMpegHdrByte` construct a header; when it is
a valid V1 Layer III frame record the first match, bump the counter, stop at
`kMinMpegFrames`, and otherwise advance by the frame's byte count; advance by
one byte in all other cases.  The fuel argument only guarantees termination;
`stop + 1` units suffice because every iteration advances the position. -/
def phase1Go (buf : List Nat) (stop : Nat) :
    Nat → Nat → Option (Nat × Nat) → Bool → Nat → Phase1Result
  | _, count, first, oob, 0 => ⟨count, first, oob⟩
  | pos, count, first, oob, fuel + 1 =>
    if pos < stop then
      if buf.getD pos 0 = kMpegHdrByte then
        let w := readWordZ buf pos
        let oob1 := oob || (readWordOpt buf pos).isNone
        if isV1LayerIII w then
          let first1 := match first with
            | none => some (pos, w)
            | some f => some f
          if count + 1 = kMinMpegFrames then ⟨count + 1, first1, oob1⟩
          else phase1Go buf stop (pos + GetFrameBytes w) (count + 1) first1 oob1 fuel
        else phase1Go buf stop (pos + 1) count first oob1 fuel
      else phase1Go buf stop (pos + 1) count first oob fuel
    else ⟨count, first, oob⟩

/-- Phase 1 of `Mp3AudioData::Load`: scan at most the first
`kMaxMpegFrameHeaderSearch` bytes of the audio buffer for
`kMinMpegFrames` consistent V1 Layer III frames. -/
def phase1 (buf : List Nat) : Phase1Result :=
  phase1Go buf (min buf.length kMaxMpegFrameHeaderSearch) 0 0 none false
    (min buf.length kMaxMpegFrameHeaderSearch + 1)

/-- One step per iteration of the accounting loop of
`Mp3AudioData::ParseFrames` (lines 185 to 198): any valid header contributes
its duration and one frame, advancing by its frame bytes; any other byte is
skipped.  The duration accumulator is exact rational arithmetic standing for
the C++ `double`. -/
def parseGo (buf : List Nat) (stop : Nat) : Nat → ℚ → Nat → Nat → ℚ × Nat
  | _, dur, cnt, 0 => (dur, cnt)
  | pos, dur, cnt, fuel + 1 =>
    if pos < stop then
      if buf.getD pos 0 = kMpegHdrByte then
        let w := readWordZ buf pos
        if IsValid w then
          parseGo buf stop (pos + GetFrameBytes w) (dur + GetFrameDurationInSecondsQ w)
            (cnt + 1) fuel
        else parseGo buf stop (pos + 1) dur cnt fuel
      else parseGo buf stop (pos + 1) dur cnt fuel
    else (dur, cnt)

/-- Embedding of `Mp3AudioData::ParseFrames`: walk from the first frame offset
to the literal end of the buffer.  The source resets `durationSec_` to zero on
entry but keeps accumulating into the member `frameCount_`, whose incoming
value is `cnt0` here. -/
def ParseFrames (buf : List Nat) (firstOffset cnt0 : Nat) : ℚ × Nat :=
  parseGo buf buf.length firstOffset 0 cnt0 (buf.length + 1)

/-- The scan-relevant state of an `Mp3AudioData` object: the stored first frame
header word (`firstMpegFrameHdr_`, default-initialised to 0), the duration
accumulator (`durationSec_`) and the frame counter (`frameCount_`).  The raw
byte buffer member is not modelled; no claim depends on it. -/
structure Mp3State where
  firstMpegFrameHdr : Nat
  durationSec : ℚ
  frameCount : Nat

/-- A default-constructed `Mp3AudioData`: header word 0, zero duration, zero
frames. -/
def initState : Mp3State := ⟨0, 0, 0⟩

namespace Mp3AudioData

/-- Scan of the in-memory audio buffer: phase 1 (sync acquisition) followed, on
success, by `ParseFrames` (full accounting), mirroring `Mp3AudioData::Load`
lines 84 to 125.  The first matched header is stored into the object as soon
as it is seen, even when the scan then fails to reach the match threshold. -/
def LoadBuffer (s : Mp3State) (audioBuffer : List Nat) : Bool × Mp3State :=
  let r := phase1 audioBuffer
  let s1 : Mp3State :=
    { s with firstMpegFrameHdr := match r.first with
        | some pw => pw.2
        | none => s.firstMpegFrameHdr }
  if r.count < kMinMpegFrames then (false, s1)
  else
    match r.first with
    | some pw =>
      let dc := ParseFrames audioBuffer pw.1 s.frameCount
      (true, ⟨pw.2, dc.1, dc.2⟩)
    | none => (false, s1)

/-- Embedding of `Mp3AudioData::Load` for a file whose bytes are `file`: an
offset hint not strictly below the file length is reset to zero, the buffer
read into memory is the file contents from the effective hint onward, and the
buffer is then scanned.  File-system failure paths (open and read errors) are
outside the model, which starts from the in-memory bytes. -/
def Load (s : Mp3State) (file : List Nat) (fileAudioOffsetHint : Nat) : Bool × Mp3State :=
  LoadBuffer s (file.drop (if fileAudioOffsetHint < file.length then fileAudioOffsetHint else 0))

/-- Embedding of `Mp3AudioData::HasMpegAudio`. -/
def HasMpegAudio (s : Mp3State) : Bool :=
  IsValid s.firstMpegFrameHdr

/-- Embedding of `Mp3AudioData::GetVersion`. -/
def GetVersion (s : Mp3State) : MpegVersion :=
  MpegFrameHdr.GetVersion s.firstMpegFrameHdr

/-- Embedding of `Mp3AudioData::GetLayer`. -/
def GetLayer (s : Mp3State) : MpegLayer :=
  MpegFrameHdr.GetLayer s.firstMpegFrameHdr

/-- Embedding of `Mp3AudioData::GetFrameCount`. -/
def GetFrameCount (s : Mp3State) : Nat :=
  s.frameCount

/-- Embedding of `Mp3AudioData::GetSamplingRateHz`. -/
def GetSamplingRateHz (s : Mp3State) : Nat :=
  MpegFrameHdr.GetSamplingRateHz s.firstMpegFrameHdr

/-- Embedding of `Mp3AudioData::GetChannelCount`: 1 for single channel, 2 for
the stereo modes. -/
def GetChannelCount (s : Mp3State) : Nat :=
  match GetChannelMode s.firstMpegFrameHdr with
  | .SingleChannel => 1
  | .Stereo => 2
  | .JointStereo => 2
  | .DualChannel => 2

end Mp3AudioData

/-- The phase-1 match counter never decreases. -/
lemma phase1Go_count_le (buf : List Nat) (stop : Nat) :
    ∀ fuel pos count first oob, count ≤ (phase1Go buf stop pos count first oob fuel).count := by
  intro fuel
  induction fuel with
  | zero => intro pos count first oob; exact le_refl _
  | succ n ih =>
    intro pos count first oob
    simp only [phase1Go]
    split_ifs with h1 h2 h3 h4
    · exact Nat.le_succ _
    · exact le_trans (Nat.le_succ _) (ih _ _ _ _)
    · exact ih _ _ _ _
    · exact ih _ _ _ _
    · exact le_refl _

/-- Once the first match is recorded it is never replaced. -/
lemma phase1Go_first_some (buf : List Nat) (stop : Nat) :
    ∀ fuel pos count f oob, (phase1Go buf stop pos count (some f) oob fuel).first = some f := by
  intro fuel
  induction fuel with
  | zero => intro pos count f oob; rfl
  | succ n ih =>
    intro pos count f oob
    simp only [phase1Go]
    split_ifs with h1 h2 h3 h4
    · rfl
    · exact ih _ _ _ _
    · exact ih _ _ _ _
    · exact ih _ _ _ _
    · rfl

/-- Starting with no recorded match, phase 1 either records nothing and leaves
the counter unchanged, or records a valid V1 Layer III header and counts at
least one match. -/
lemma phase1Go_none (buf : List Nat) (stop : Nat) :
    ∀ fuel pos count oob,
      ((phase1Go buf stop pos count none oob fuel).first = none ∧
        (phase1Go buf stop pos count none oob fuel).count = count) ∨
      (∃ p w, (phase1Go buf stop pos count none oob fuel).first = some (p, w) ∧
        isV1LayerIII w = true ∧
        count + 1 ≤ (phase1Go buf stop pos count none oob fuel).count) := by
  intro fuel
  induction fuel with
  | zero => intro pos count oob; exact Or.inl ⟨rfl, rfl⟩
  | succ n ih =>
    intro pos count oob
    simp only [phase1Go]
    split_ifs with h1 h2 h3 h4
    · exact Or.inr ⟨pos, readWordZ buf pos, rfl, h3, le_refl _⟩
    · refine Or.inr ⟨pos, readWordZ buf pos, ?_, h3, ?_⟩
      · exact phase1Go_first_some buf stop n _ _ _ _
      · exact phase1Go_count_le buf stop n _ _ _ _
    · exact ih _ _ _
    · exact ih _ _ _
    · exact Or.inl ⟨rfl, rfl⟩

/-- Every counted phase-1 match corresponds to a distinct position below the
search ceiling that carries a valid V1 Layer III header: the final counter
exceeds the incoming one by the length of a strictly increasing list of such
positions. -/
lemma phase1Go_positions (buf : List Nat) (stop : Nat) :
    ∀ fuel pos count first oob,
      ∃ L : List Nat,
        (phase1Go buf stop pos count first oob fuel).count = count + L.length ∧
        L.Pairwise (· < ·) ∧
        ∀ q ∈ L, pos ≤ q ∧ q < stop ∧ isV1LayerIII (readWordZ buf q) = true := by
  intro fuel
  induction fuel with
  | zero =>
    intro pos count first oob
    exact ⟨[], rfl, List.Pairwise.nil, by intro q hq; cases hq⟩
  | succ n ih =>
    intro pos count first oob
    simp only [phase1Go]
    split_ifs with h1 h2 h3 h4
    · refine ⟨[pos], rfl, List.pairwise_singleton _ _, ?_⟩
      intro q hq
      rw [List.mem_singleton] at hq
      subst hq
      exact ⟨le_refl _, h1, h3⟩
    · obtain ⟨L, hlen, hpw, hmem⟩ :=
        ih (pos + GetFrameBytes (readWordZ buf pos)) (count + 1)
          (match first with | none => some (pos, readWordZ buf pos) | some f => some f)
          (oob || (readWordOpt buf pos).isNone)
      have hfb : 1 ≤ GetFrameBytes (readWordZ buf pos) := by
        have hvalid : IsValid (readWordZ buf pos) = true := by
          have := h3
          simp only [isV1LayerIII, Bool.and_eq_true] at this
          exact this.1.1
        exact one_le_GetFrameBytes _ hvalid
      refine ⟨pos :: L, ?_, ?_, ?_⟩
      · rw [hlen]
        simp [List.length_cons]
        omega
      · refine List.pairwise_cons.mpr ⟨?_, hpw⟩
        intro q hq
        have := (hmem q hq).1
        omega
      · intro q hq
        rcases List.mem_cons.mp hq with hq | hq
        · subst hq
          exact ⟨le_refl _, h1, h3⟩
        · obtain ⟨hle, hlt, hv⟩ := hmem q hq
          exact ⟨by omega, hlt, hv⟩
    · obtain ⟨L, hlen, hpw, hmem⟩ := ih (pos + 1) count first (oob || (readWordOpt buf pos).isNone)
      refine ⟨L, hlen, hpw, ?_⟩
      intro q hq
      obtain ⟨hle, hlt, hv⟩ := hmem q hq
      exact ⟨by omega, hlt, hv⟩
    · obtain ⟨L, hlen, hpw, hmem⟩ := ih (pos + 1) count first oob
      refine ⟨L, hlen, hpw, ?_⟩
      intro q hq
      obtain ⟨hle, hlt, hv⟩ := hmem q hq
      exact ⟨by omega, hlt, hv⟩
    · exact ⟨[], rfl, List.Pairwise.nil, by intro q hq; cases hq⟩

/-- The duration component of the accounting loop does not depend on the
incoming frame counter. -/
lemma parseGo_fst (buf : List Nat) (stop : Nat) :
    ∀ fuel pos dur cnt cnt',
      (parseGo buf stop pos dur cnt fuel).1 = (parseGo buf stop pos dur cnt' fuel).1 := by
  intro fuel
  induction fuel with
  | zero => intro pos dur cnt cnt'; rfl
  | succ n ih =>
    intro pos dur cnt cnt'
    simp only [parseGo]
    split_ifs with h1 h2 h3
    · exact ih _ _ _ _
    · exact ih _ _ _ _
    · exact ih _ _ _ _
    · rfl

/-- Truncating a list does not change reads strictly below the truncation
point. -/
lemma getD_take_of_lt (l : List Nat) (n i d : Nat) (h : i < n) :
    (l.take n).getD i d = l.getD i d := by
  simp [List.getD_eq_getElem?_getD, List.getElem?_take_of_lt h]

/-- Truncating a list does not change 4-byte header words read strictly below
the truncation point. -/
lemma readWordZ_take (buf : List Nat) (n pos : Nat) (h : pos + 3 < n) :
    readWordZ (buf.take n) pos = readWordZ buf pos := by
  unfold readWordZ
  rw [getD_take_of_lt _ _ _ _ (by omega), getD_take_of_lt _ _ _ _ (by omega),
    getD_take_of_lt _ _ _ _ (by omega), getD_take_of_lt _ _ _ _ (by omega)]

/-- Truncating a list does not change whether a 4-byte read below the
truncation point runs past the end. -/
lemma readWordOpt_isNone_take (buf : List Nat) (n pos : Nat) (h : pos + 4 ≤ n) :
    (readWordOpt (buf.take n) pos).isNone = (readWordOpt buf pos).isNone := by
  simp only [readWordOpt, List.length_take]
  have key : (pos + 4 ≤ min n buf.length) ↔ (pos + 4 ≤ buf.length) := by omega
  by_cases hc : pos + 4 ≤ buf.length
  · rw [if_pos (key.mpr hc), if_pos hc, Option.isNone_some, Option.isNone_some]
  · rw [if_neg (fun hx => hc (key.mp hx)), if_neg hc]

/-- Phase 1 never looks past position `stop + 3`: truncating the buffer at
`kMaxMpegFrameHeaderSearch + 3` leaves the loop's behaviour unchanged whenever
`stop` is at most the search ceiling. -/
lemma phase1Go_take (buf : List Nat) (stop : Nat) (hstop : stop ≤ kMaxMpegFrameHeaderSearch) :
    ∀ fuel pos count first oob,
      phase1Go (buf.take (kMaxMpegFrameHeaderSearch + 3)) stop pos count first oob fuel =
        phase1Go buf stop pos count first oob fuel := by
  intro fuel
  induction fuel with
  | zero => intro pos count first oob; rfl
  | succ n ih =>
    intro pos count first oob
    simp only [phase1Go]
    by_cases h1 : pos < stop
    · have hk : kMaxMpegFrameHeaderSearch = 512000 := rfl
      have e1 : (buf.take (kMaxMpegFrameHeaderSearch + 3)).getD pos 0 = buf.getD pos 0 :=
        getD_take_of_lt _ _ _ _ (by omega)
      have e2 : readWordZ (buf.take (kMaxMpegFrameHeaderSearch + 3)) pos = readWordZ buf pos :=
        readWordZ_take _ _ _ (by omega)
      have e3 : (readWordOpt (buf.take (kMaxMpegFrameHeaderSearch + 3)) pos).isNone =
          (readWordOpt buf pos).isNone := readWordOpt_isNone_take _ _ _ (by omega)
      rw [e1, e2, e3]
      split_ifs with h2 h3 h4
      · rfl
      · exact ih _ _ _ _
      · exact ih _ _ _ _
      · exact ih _ _ _ _
    · rw [if_neg h1, if_neg h1]

/-- Number of positions within the phase-1 search ceiling that carry a valid
MPEG Version 1 Layer III frame header. -/
def validV1L3Count (file : List Nat) : Nat :=
  ((Finset.range kMaxMpegFrameHeaderSearch).filter
    (fun p => isV1LayerIII (readWordZ file p) = true)).card

/-- An empty buffer has no valid header positions. -/
lemma validV1L3Count_nil : validV1L3Count [] = 0 := by
  rw [validV1L3Count, Finset.card_eq_zero, Finset.filter_eq_empty_iff]
  intro p _
  have h0 : readWordZ [] p = 0 := by simp [readWordZ]
  rw [h0]
  decide

/-- A scan over a buffer with fewer than `kMinMpegFrames` valid V1 Layer III
header positions inside the search ceiling returns false. -/
lemma load_false_of_few (s : Mp3State) (file : List Nat)
    (hfew : validV1L3Count file < kMinMpegFrames) :
    (Mp3AudioData.Load s file 0).1 = false := by
  have hcount : (phase1 file).count < kMinMpegFrames := by
    by_contra hge
    push_neg at hge
    obtain ⟨L, hlen, hpw, hmem⟩ :=
      phase1Go_positions file (min file.length kMaxMpegFrameHeaderSearch)
        (min file.length kMaxMpegFrameHeaderSearch + 1) 0 0 none false
    have hlen' : (phase1 file).count = 0 + L.length := hlen
    have hsub : L.toFinset ⊆ (Finset.range kMaxMpegFrameHeaderSearch).filter
        (fun p => isV1LayerIII (readWordZ file p) = true) := by
      intro q hq
      rw [List.mem_toFinset] at hq
      obtain ⟨-, hlt, hv⟩ := hmem q hq
      refine Finset.mem_filter.mpr ⟨Finset.mem_range.mpr ?_, hv⟩
      have hle : min file.length kMaxMpegFrameHeaderSearch ≤ kMaxMpegFrameHeaderSearch :=
        min_le_right _ _
      omega
    have hnodup : L.Nodup := hpw.imp (fun hlt => Nat.ne_of_lt hlt)
    have hcard : L.length ≤ validV1L3Count file := by
      rw [validV1L3Count, ← List.toFinset_card_of_nodup hnodup]
      exact Finset.card_le_card hsub
    omega
  have hdrop : (file.drop (if 0 < file.length then 0 else 0)) = file := by
    rw [ite_self, List.drop_zero]
  simp only [Mp3AudioData.Load, Mp3AudioData.LoadBuffer, hdrop, if_pos hcount]

/-- A synthetic buffer of three consecutive well-formed MPEG-1 Layer III
frames: 48 kHz, 32 kbps, 96 bytes per frame.  Used to exercise a full
successful scan. -/
def mp3Demo3Frames : List Nat :=
  ([0xFF, 0xFB, 0x14, 0x00] ++ List.replicate 92 0) ++
    (([0xFF, 0xFB, 0x14, 0x00] ++ List.replicate 92 0) ++
      ([0xFF, 0xFB, 0x14, 0x00] ++ List.replicate 92 0))

end PKIsensee

open PKIsensee PKIsensee.MpegFrameHdr

/-- C1 (counterexample): a buffer of exactly 4 bytes holding one valid MPEG-1
Layer III header makes phase 1 stop below the 3-match threshold and `Load`
return false, yet the match is stored into the object, so `HasMpegAudio()`
reports true instead of the claimed empty summary. -/
theorem load_few_matches_counterexample :
    (phase1 [0xFF, 0xFB, 0x14, 0x00]).count < kMinMpegFrames ∧
    (Mp3AudioData.Load initState [0xFF, 0xFB, 0x14, 0x00] 0).1 = false ∧
    Mp3AudioData.HasMpegAudio (Mp3AudioData.Load initState [0xFF, 0xFB, 0x14, 0x00] 0).2
      = true := by
  decide

/-- C1 (amended): when phase 1 finds fewer than the 3-match threshold, `Load`
returns false; the summary of an initially empty object is however empty
(`HasMpegAudio()` false) exactly when phase 1 recorded no match at all — a
recorded first match is retained even though `Load` fails. -/
theorem load_few_matches (file : List Nat) (hint : Nat)
    (hfew : (phase1 (file.drop (if hint < file.length then hint else 0))).count
      < kMinMpegFrames) :
    (Mp3AudioData.Load initState file hint).1 = false ∧
    (Mp3AudioData.HasMpegAudio (Mp3AudioData.Load initState file hint).2 = true ↔
      0 < (phase1 (file.drop (if hint < file.length then hint else 0))).count) := by
  set buf := file.drop (if hint < file.length then hint else 0) with hbuf
  have hload : Mp3AudioData.Load initState file hint = Mp3AudioData.LoadBuffer initState buf :=
    rfl
  rw [hload]
  simp only [Mp3AudioData.LoadBuffer, if_pos hfew]
  rcases phase1Go_none buf (min buf.length kMaxMpegFrameHeaderSearch)
      (min buf.length kMaxMpegFrameHeaderSearch + 1) 0 0 false with ⟨hn, hc⟩ | ⟨p, w, hs, hv, hge⟩
  · have hn' : (phase1 buf).first = none := hn
    have hc' : (phase1 buf).count = 0 := hc
    rw [hn', hc']
    refine ⟨trivial, ?_⟩
    simp [Mp3AudioData.HasMpegAudio, initState]
    decide
  · have hs' : (phase1 buf).first = some (p, w) := hs
    have hge' : 1 ≤ (phase1 buf).count := hge
    rw [hs']
    refine ⟨trivial, ?_⟩
    have hvalid : IsValid w = true := by
      simp only [isV1LayerIII, Bool.and_eq_true] at hv
      exact hv.1.1
    simp [Mp3AudioData.HasMpegAudio, hvalid]
    omega

/-- C1 (witness): the amended theorem applied to the 4-byte single-header
buffer. -/
theorem load_few_matches_witness :
    (Mp3AudioData.Load initState [0xFF, 0xFB, 0x14, 0x00] 0).1 = false ∧
    (Mp3AudioData.HasMpegAudio (Mp3AudioData.Load initState [0xFF, 0xFB, 0x14, 0x00] 0).2
        = true ↔
      0 < (phase1 (([0xFF, 0xFB, 0x14, 0x00] : List Nat).drop
        (if 0 < ([0xFF, 0xFB, 0x14, 0x00] : List Nat).length then 0 else 0))).count) :=
  load_few_matches [0xFF, 0xFB, 0x14, 0x00] 0 (by decide)

set_option maxRecDepth 1000000 in
/-- C2: scanning is not idempotent on the frame counter.  `ParseFrames` resets
the duration accumulator but keeps adding to the member frame counter, so a
second `Load` of the same three-frame buffer doubles the reported frame count
while leaving the duration unchanged; this contradicts the replace-the-state
intent that the duration reset itself evidences. -/
theorem rescan_accumulates_frameCount :
    (Mp3AudioData.Load initState mp3Demo3Frames 0).2.frameCount = 3 ∧
    (Mp3AudioData.Load (Mp3AudioData.Load initState mp3Demo3Frames 0).2
        mp3Demo3Frames 0).2.frameCount = 6 ∧
    (Mp3AudioData.Load (Mp3AudioData.Load initState mp3Demo3Frames 0).2
        mp3Demo3Frames 0).2.durationSec =
      (Mp3AudioData.Load initState mp3Demo3Frames 0).2.durationSec := by
  refine ⟨by decide, by decide, ?_⟩
  have e2 : (Mp3AudioData.Load (Mp3AudioData.Load initState mp3Demo3Frames 0).2
        mp3Demo3Frames 0).2.durationSec = (ParseFrames mp3Demo3Frames 0 3).1 := rfl
  have e1 : (Mp3AudioData.Load initState mp3Demo3Frames 0).2.durationSec
      = (ParseFrames mp3Demo3Frames 0 0).1 := rfl
  rw [e1, e2]
  exact parseGo_fst mp3Demo3Frames mp3Demo3Frames.length _ 0 0 3 0

/-- C3: the source's `ProtectedByCRC` is inverted with respect to the MPEG
meaning of the protection bit and to its own documentation comment: on the
valid header 0xFFFA9000 whose ProtectionBit field is 0 (a CRC follows) it
returns false, and on 0xFFFB9000 whose ProtectionBit field is 1 (no CRC
follows) it returns true. -/
theorem protectedByCRC_inverted :
    IsValid 0xFFFA9000 = true ∧
    ExtractBits 0xFFFA9000 MpegField.ProtectionBit = 0 ∧
    ProtectedByCRC 0xFFFA9000 = false ∧
    ExtractBits 0xFFFB9000 MpegField.ProtectionBit = 1 ∧
    ProtectedByCRC 0xFFFB9000 = true := by
  decide

/-- C4: for every header accepted by `IsValid`, the table values consumed by
`GetFrameBytes` are strictly positive — samples per frame, the derived
samples-per-byte quantity, the bitrate in bits per second, the sampling rate,
and the slot size — so its three positivity assertions hold and no division by
zero is reachable. -/
theorem getFrameBytes_assertions_hold (h : Nat) (hv : IsValid h = true) :
    0 < samplesPerFrameAt (ExtractBits h .VersionIndex) (ExtractBits h .LayerIndex) ∧
    0 < samplesPerFrameAt (ExtractBits h .VersionIndex) (ExtractBits h .LayerIndex) / 8 /
        kSlotSizes.getD (ExtractBits h .LayerIndex) 0 ∧
    0 < GetBitrateKbps h * 1000 ∧
    0 < GetSamplingRateHz h ∧
    0 < kSlotSizes.getD (ExtractBits h .LayerIndex) 0 := by
  have hf := valid_facts h hv
  exact ⟨hf.1, hf.2.1, hf.2.2.1, hf.2.2.2.1, hf.2.2.2.2.1⟩

/-- C4 (witness): the assertion positivity facts at the concrete valid header
0xFFFB9000. -/
theorem getFrameBytes_assertions_witness :
    IsValid 0xFFFB9000 = true ∧
    (0 < samplesPerFrameAt (ExtractBits 0xFFFB9000 .VersionIndex)
        (ExtractBits 0xFFFB9000 .LayerIndex) ∧
      0 < samplesPerFrameAt (ExtractBits 0xFFFB9000 .VersionIndex)
          (ExtractBits 0xFFFB9000 .LayerIndex) / 8 /
          kSlotSizes.getD (ExtractBits 0xFFFB9000 .LayerIndex) 0 ∧
      0 < GetBitrateKbps 0xFFFB9000 * 1000 ∧
      0 < GetSamplingRateHz 0xFFFB9000 ∧
      0 < kSlotSizes.getD (ExtractBits 0xFFFB9000 .LayerIndex) 0) :=
  ⟨by decide, getFrameBytes_assertions_hold 0xFFFB9000 (by decide)⟩

/-- C5: on every valid header the source's truncating-division frame size
agrees with the spec's exact rational floor formula (`specFrameBytes`), and on
the concrete 44.1 kHz, 128 kbps, MPEG-1 Layer III, stereo, unpadded header the
frame size is 417 bytes and the frame duration is 1152/44100 seconds. -/
theorem getFrameBytes_matches_spec_formula (h : Nat) (hv : IsValid h = true) :
    GetFrameBytes h = specFrameBytes h ∧
    (h = 0xFFFB9000 →
      GetFrameBytes h = 417 ∧ GetFrameDurationInSecondsQ h = 1152 / 44100) := by
  constructor
  · have hf := valid_facts h hv
    have hslot : kSlotSizes.getD (ExtractBits h .LayerIndex) 0 ≠ 0 :=
      Nat.pos_iff_ne_zero.mp hf.2.2.2.2.1
    have hrate : samplingRateAt (ExtractBits h .VersionIndex)
        (ExtractBits h .SamplingRateFreqIndex) ≠ 0 :=
      Nat.pos_iff_ne_zero.mp hf.2.2.2.1
    rw [GetFrameBytes_def]
    simp only [specFrameBytes, GetSampleCount, GetBitrateKbps, GetSamplingRateHz]
    rw [floor_formula _ _ _ _ hslot hrate, hf.2.2.2.2.2.1]
    cases hb : HasPaddingBit h <;> simp [hb]
  · rintro rfl
    refine ⟨by decide, ?_⟩
    rw [GetFrameDurationInSecondsQ, show GetSampleCount 0xFFFB9000 = 1152 from by decide,
      show GetSamplingRateHz 0xFFFB9000 = 44100 from by decide]
    norm_num

/-- C5 (witness): the formula agreement and the concrete values at the header
0xFFFB9000. -/
theorem getFrameBytes_matches_spec_formula_witness :
    IsValid 0xFFFB9000 = true ∧ GetFrameBytes 0xFFFB9000 = 417 ∧
    GetFrameDurationInSecondsQ 0xFFFB9000 = 1152 / 44100 :=
  ⟨by decide, (getFrameBytes_matches_spec_formula 0xFFFB9000 (by decide)).2 rfl⟩

/-- C6: for every 32-bit header word, `IsValid` holds exactly when the 11-bit
frame sync is all ones, the version index is not the reserved 01, the layer
index is not the reserved 00, the bitrate index is neither 0 nor 15, and the
sampling-rate index is not the reserved 11. -/
theorem isValid_characterization (h : Nat) (_hb : h < 2 ^ 32) :
    IsValid h = true ↔
      ((h >>> 21) % 2 ^ 11 = 2 ^ 11 - 1 ∧
       (h >>> 19) % 2 ^ 2 ≠ 1 ∧
       (h >>> 17) % 2 ^ 2 ≠ 0 ∧
       (h >>> 12) % 2 ^ 4 ≠ 0 ∧
       (h >>> 12) % 2 ^ 4 ≠ 15 ∧
       (h >>> 10) % 2 ^ 2 ≠ 3) := by
  rw [isValid_iff]
  simp only [ExtractBits_eq_shift_mod, kMpegFieldInfo, kGoodFrameSync]
  norm_num

/-- C6 (witness): the characterization applied to the concrete header
0xFFFB9000. -/
theorem isValid_characterization_witness :
    IsValid 0xFFFB9000 = true ↔
      ((0xFFFB9000 >>> 21) % 2 ^ 11 = 2 ^ 11 - 1 ∧
       (0xFFFB9000 >>> 19) % 2 ^ 2 ≠ 1 ∧
       (0xFFFB9000 >>> 17) % 2 ^ 2 ≠ 0 ∧
       (0xFFFB9000 >>> 12) % 2 ^ 4 ≠ 0 ∧
       (0xFFFB9000 >>> 12) % 2 ^ 4 ≠ 15 ∧
       (0xFFFB9000 >>> 10) % 2 ^ 2 ≠ 3) :=
  isValid_characterization 0xFFFB9000 (by norm_num)

/-- C7 (counterexample): the phase-1 search ceiling constant is 500 * 1024 =
512000 bytes, not 512 KiB = 524288 bytes as claimed. -/
theorem search_ceiling_counterexample :
    kMaxMpegFrameHeaderSearch ≠ 524288 ∧ kMaxMpegFrameHeaderSearch = 512000 := by
  decide

/-- C7 (amended): the search ceiling is the fixed constant 500 KiB (512000
bytes) and the match threshold is the fixed constant 3; phase 1 reads no byte
at or beyond offset 512003 (truncating the buffer there changes nothing), and
a buffer with fewer than 3 valid MPEG-1 Layer III headers within its first
512000 bytes always makes the scan report no MPEG audio. -/
theorem search_ceiling_and_threshold :
    kMaxMpegFrameHeaderSearch = 512000 ∧ kMinMpegFrames = 3 ∧
    (∀ buf : List Nat, phase1 (buf.take (kMaxMpegFrameHeaderSearch + 3)) = phase1 buf) ∧
    (∀ (s : Mp3State) (file : List Nat), validV1L3Count file < kMinMpegFrames →
      (Mp3AudioData.Load s file 0).1 = false) := by
  refine ⟨rfl, rfl, ?_, ?_⟩
  · intro buf
    simp only [phase1, List.length_take]
    have hmin : min (min (kMaxMpegFrameHeaderSearch + 3) buf.length) kMaxMpegFrameHeaderSearch
        = min buf.length kMaxMpegFrameHeaderSearch := by omega
    rw [hmin]
    exact phase1Go_take buf _ (min_le_right _ _) _ _ _ _ _
  · exact load_false_of_few

/-- C7 (witness): the threshold conclusion applied to the empty buffer. -/
theorem search_ceiling_and_threshold_witness :
    (Mp3AudioData.Load initState [] 0).1 = false :=
  search_ceiling_and_threshold.2.2.2 initState []
    (by rw [validV1L3Count_nil]; decide)

/-- C8: an offset hint that is not strictly below the file length is silently
treated as zero, and a hint strictly below the length makes the scan start at
exactly that offset of the file contents. -/
theorem hint_normalization (s : Mp3State) (file : List Nat) (hint : Nat) :
    (file.length ≤ hint → Mp3AudioData.Load s file hint = Mp3AudioData.Load s file 0) ∧
    (hint < file.length →
      Mp3AudioData.Load s file hint = Mp3AudioData.LoadBuffer s (file.drop hint)) := by
  constructor
  · intro h
    have h0 : (if hint < file.length then hint else 0) = 0 := if_neg (Nat.not_lt.mpr h)
    simp only [Mp3AudioData.Load, h0, ite_self]
  · intro h
    simp only [Mp3AudioData.Load, if_pos h]

/-- C8 (witness): hint normalization on a 3-byte file with the out-of-range
hint 7 and the in-range hint 1. -/
theorem hint_normalization_witness :
    (Mp3AudioData.Load initState [0, 0, 0] 7 = Mp3AudioData.Load initState [0, 0, 0] 0) ∧
    (Mp3AudioData.Load initState [0, 0, 0] 1
      = Mp3AudioData.LoadBuffer initState (([0, 0, 0] : List Nat).drop 1)) :=
  ⟨(hint_normalization initState [0, 0, 0] 7).1 (by decide),
   (hint_normalization initState [0, 0, 0] 1).2 (by decide)⟩

/-- C9: the scan tests candidate positions all the way to the last byte while
each candidate test reads 4 bytes, so on the one-byte buffer [0xFF] the
constructed header's 4-byte read runs past the end of the buffer: the
Option-returning read yields `none` there and the scan's out-of-bounds flag is
raised. -/
theorem oob_read_reachable :
    (readWordOpt [0xFF] 0).isNone = true ∧ (phase1 [0xFF]).oob = true := by
  decide

/-- C10: a default-constructed object stores header word 0; `HasMpegAudio()`
is false, yet the accessors decode the all-zero word instead of returning
sentinels: version V2.5, layer None, sampling rate 11025 Hz, channel count 2. -/
theorem default_state_accessors :
    Mp3AudioData.HasMpegAudio initState = false ∧
    Mp3AudioData.GetVersion initState = MpegVersion.V2_5 ∧
    Mp3AudioData.GetLayer initState = MpegLayer.None ∧
    Mp3AudioData.GetSamplingRateHz initState = 11025 ∧
    Mp3AudioData.GetChannelCount initState = 2 := by
  decide
